import Mathlib

/-!
Verification of the natural-language reminder scheduling core of this
repository (reminder_scheduler.py and bot.py), as a shallow embedding.

Modelling conventions:
* Python strings are `List Char` (the sources only ever handle ASCII here).
* Timezone-aware datetimes in the one fixed timezone (Asia/Kolkata, a fixed
  offset with no DST) are modelled as `Int` seconds of local wall-clock time
  since the local epoch; `d.date()` is `Int.ediv d 86400` (days), a
  time-of-day is a `Nat` number of seconds below 86400, and
  `timezone.localize (datetime.combine day tod)` is `day * 86400 + tod`.
* `datetime.strptime` for the concrete format strings used by the source is
  embedded field by field following CPython's `_strptime` regexes, including
  their alternation order and the requirement that the whole string is
  consumed.
* APScheduler's job store is a list of `(job id, job)` pairs;
  `add_job (replace_existing := True)` drops any job with the same id and
  appends the new one.
-/

/-- Convert a Lean string literal to the `List Char` representation used
throughout this development. -/
def str (s : String) : List Char := s.data

/-- The characters Python's `str.strip()` / `str.split()` treat as
whitespace (ASCII fragment). -/
def isWsB (c : Char) : Bool :=
  c == ' ' || c == '\t' || c == '\n' || c == '\r' || c == Char.ofNat 11 || c == Char.ofNat 12

/-- Python `str.lower()` on one ASCII character. -/
def pyLowerChar (c : Char) : Char :=
  if 65 ≤ c.toNat ∧ c.toNat ≤ 90 then Char.ofNat (c.toNat + 32) else c

/-- Python `str.lower()` (ASCII fragment). -/
def pyLower (s : List Char) : List Char := s.map pyLowerChar

/-- Python `str.strip()`: drop whitespace from both ends. -/
def pyStrip (s : List Char) : List Char :=
  ((s.dropWhile isWsB).reverse.dropWhile isWsB).reverse

/-- Python `needle in hay` substring test. -/
def containsSub (hay needle : List Char) : Bool :=
  match hay with
  | [] => needle.isEmpty
  | _ :: rest => needle.isPrefixOf hay || containsSub rest needle

/-- Index of the first occurrence of `needle` in `hay` (Python `str.find`,
total: returns `hay.length` when absent; only used when present). -/
def firstOccIdx (hay needle : List Char) : Nat :=
  match hay with
  | [] => 0
  | _ :: rest => if needle.isPrefixOf hay then 0 else firstOccIdx rest needle + 1

/-- Worker for `pySplitWs` (Python no-argument `str.split()`): whitespace
runs separate words, no empty words are produced.  The accumulator holds the
current word reversed. -/
def splitWsAux : List Char → List Char → List (List Char)
  | [], acc => if acc.isEmpty then [] else [acc.reverse]
  | c :: rest, acc =>
    if isWsB c then
      if acc.isEmpty then splitWsAux rest [] else acc.reverse :: splitWsAux rest []
    else splitWsAux rest (c :: acc)

/-- Python `str.split()` with no argument. -/
def pySplitWs (s : List Char) : List (List Char) := splitWsAux s []

/-- Fuelled worker for `pySplit` (Python `str.split(sep)` with a non-empty
separator): split at every non-overlapping occurrence, left to right. -/
def pySplitF (sep : List Char) : Nat → List Char → List Char → List (List Char)
  | 0, hay, acc => [acc.reverse ++ hay]
  | fuel + 1, hay, acc =>
    match hay with
    | [] => [acc.reverse]
    | c :: rest =>
      if sep.isPrefixOf hay then
        acc.reverse :: pySplitF sep fuel (hay.drop sep.length) []
      else pySplitF sep fuel rest (c :: acc)

/-- Python `str.split(sep)` for a non-empty separator. -/
def pySplit (hay sep : List Char) : List (List Char) :=
  pySplitF sep (hay.length + 1) hay []

/-- Python `str.replace(" ", "")`. -/
def removeSpaces (s : List Char) : List Char := s.filter (fun c => c != ' ')

/-- Decimal value of a digit string. -/
def decVal (s : List Char) : Nat := s.foldl (fun a c => a * 10 + (c.toNat - 48)) 0

/-- Digit-string part of Python `int(...)`: non-empty all-digit strings only. -/
def digitsToNat (s : List Char) : Option Nat :=
  if s.isEmpty then none
  else if s.all Char.isDigit then some (decVal s) else none

/-- Sign-and-digit part of Python `int(str)` after whitespace stripping. -/
def pyIntRaw : List Char → Option Int
  | [] => none
  | c :: rest =>
    if c = '-' then (digitsToNat rest).map (fun n => -(n : Int))
    else if c = '+' then (digitsToNat rest).map (fun n => (n : Int))
    else (digitsToNat (c :: rest)).map (fun n => (n : Int))

/-- Python `int(str)` (the fragment exercised here: optional surrounding
whitespace, an optional sign, then decimal digits; underscore grouping is
not used by any input of this program). `none` models `ValueError`. -/
def pyInt (s : List Char) : Option Int := pyIntRaw (pyStrip s)

section Strptime

/-- Read exactly `n` decimal digits off the front of the string, returning
their value and the rest. -/
def takeDigitsN : Nat → List Char → Nat → Option (Nat × List Char)
  | 0, cs, acc => some (acc, cs)
  | _ + 1, [], _ => none
  | n + 1, c :: rest, acc =>
    if c.isDigit then takeDigitsN n rest (acc * 10 + (c.toNat - 48)) else none

/-- One numeric `strptime` field.  Each entry `(width, lo, hi)` is one
alternative of the CPython `_strptime` regex for the field, in the regex's
alternation order; the candidates (value, rest-of-input) are produced in
that order for backtracking. -/
def fieldCands (spec : List (Nat × Nat × Nat)) (cs : List Char) : List (Nat × List Char) :=
  spec.filterMap (fun t =>
    match takeDigitsN t.1 cs 0 with
    | some (v, r) => if t.2.1 ≤ v ∧ v ≤ t.2.2 then some (v, r) else none
    | none => none)

/-- Field `%H` : `2[0-3]|[0-1]\d|\d`. -/
def specH : List (Nat × Nat × Nat) := [(2, 20, 23), (2, 0, 19), (1, 0, 9)]

/-- Field `%M` : `[0-5]\d|\d`. -/
def specM : List (Nat × Nat × Nat) := [(2, 0, 59), (1, 0, 9)]

/-- Field `%I` : `1[0-2]|0[1-9]|[1-9]`. -/
def specI : List (Nat × Nat × Nat) := [(2, 10, 12), (2, 1, 9), (1, 1, 9)]

/-- Field `%S` : `6[0-1]|[0-5]\d|\d`. -/
def specS : List (Nat × Nat × Nat) := [(2, 60, 61), (2, 0, 59), (1, 0, 9)]

/-- Field `%d` : `3[01]|[12]\d|0[1-9]|[1-9]`. -/
def specDay : List (Nat × Nat × Nat) := [(2, 30, 31), (2, 10, 29), (2, 1, 9), (1, 1, 9)]

/-- Field `%m` : `1[0-2]|0[1-9]|[1-9]`. -/
def specMon : List (Nat × Nat × Nat) := [(2, 10, 12), (2, 1, 9), (1, 1, 9)]

/-- Field `%Y` : exactly four digits. -/
def specY : List (Nat × Nat × Nat) := [(4, 0, 9999)]

/-- Field `%p`: `AM`/`PM`, case-insensitively; returns whether it is PM. -/
def parseAmPm (cs : List Char) : Option (Bool × List Char) :=
  match cs with
  | c1 :: c2 :: rest =>
    if pyLowerChar c2 = 'm' then
      if pyLowerChar c1 = 'a' then some (false, rest)
      else if pyLowerChar c1 = 'p' then some (true, rest)
      else none
    else none
  | _ => none

/-- A single literal character of a format string. -/
def litChar (c : Char) (cs : List Char) : Option (List Char) :=
  match cs with
  | d :: rest => if d = c then some rest else none
  | [] => none

/-- A literal whitespace in a `strptime` format string matches `\s+`. -/
def wsPlus (cs : List Char) : Option (List Char) :=
  match cs with
  | c :: rest => if isWsB c then some (rest.dropWhile isWsB) else none
  | [] => none

/-- Hour-of-day from a `%I` value and a `%p` flag. -/
def hour12 (v : Nat) (pm : Bool) : Nat :=
  (if v = 12 then 0 else v) + (if pm then 12 else 0)

/-- Python `strptime` with format `"%I%p"`, as seconds of day (whole string must
be consumed). -/
def fmtIp (cs : List Char) : Option Nat :=
  (fieldCands specI cs).findSome? fun vr =>
    (parseAmPm vr.2).bind fun pr =>
      if pr.2.isEmpty then some (hour12 vr.1 pr.1 * 3600) else none

/-- Python `strptime` with format `"%I:%M%p"`, as seconds of day. -/
def fmtIMp (cs : List Char) : Option Nat :=
  (fieldCands specI cs).findSome? fun vr =>
    (litChar ':' vr.2).bind fun r2 =>
      (fieldCands specM r2).findSome? fun mr =>
        (parseAmPm mr.2).bind fun pr =>
          if pr.2.isEmpty then some (hour12 vr.1 pr.1 * 3600 + mr.1 * 60) else none

/-- Python `strptime` with format `"%H:%M"`, as seconds of day. -/
def fmtHM (cs : List Char) : Option Nat :=
  (fieldCands specH cs).findSome? fun vr =>
    (litChar ':' vr.2).bind fun r2 =>
      (fieldCands specM r2).findSome? fun mr =>
        if mr.2.isEmpty then some (vr.1 * 3600 + mr.1 * 60) else none

/-- Python `strptime` with format `"%H"`, as seconds of day. -/
def fmtH (cs : List Char) : Option Nat :=
  (fieldCands specH cs).findSome? fun vr =>
    if vr.2.isEmpty then some (vr.1 * 3600) else none

/-- Python `strptime` with format `"%I:%M"`, as seconds of day (no `%p`, so the
hour is used as given). -/
def fmtIM (cs : List Char) : Option Nat :=
  (fieldCands specI cs).findSome? fun vr =>
    (litChar ':' vr.2).bind fun r2 =>
      (fieldCands specM r2).findSome? fun mr =>
        if mr.2.isEmpty then some (vr.1 * 3600 + mr.1 * 60) else none

/-- Try an ordered list of time-of-day formats; first success wins (the
source's `for fmt in [...]` / `except ValueError: continue` loop). -/
def tryFmts (fs : List (List Char → Option Nat)) (cs : List Char) : Option Nat :=
  fs.findSome? fun f => f cs

/-- Gregorian leap year. -/
def isLeap (y : Nat) : Bool := (y % 4 = 0 && y % 100 ≠ 0) || y % 400 = 0

/-- Days in a month (`m` is 1-12). -/
def daysInMonth (y m : Nat) : Nat :=
  if m = 2 then (if isLeap y then 29 else 28)
  else if m = 4 || m = 6 || m = 9 || m = 11 then 30 else 31

/-- Day-number (days since 1970-01-01) of a civil date, the standard
days-from-civil computation; `datetime.date` validity is checked separately. -/
def dayNumber (y m d : Nat) : Int :=
  let y' : Nat := if m ≤ 2 then y - 1 else y
  let era : Nat := y' / 400
  let yoe : Nat := y' - era * 400
  let mp : Nat := (m + 9) % 12
  let doy : Nat := (153 * mp + 2) / 5 + (d - 1)
  let doe : Nat := yoe * 365 + yoe / 4 - yoe / 100 + doy
  (era : Int) * 146097 + (doe : Int) - 719468

/-- Python `datetime(year, month, day)` constructor validity (what `strptime`'s
regex does not already enforce: year ≥ 1 and day within the month). -/
def validDate (y m d : Nat) : Bool := 1 ≤ y && 1 ≤ d && d ≤ daysInMonth y m

/-- Timestamp (local seconds) from parsed date and time fields, `none` if
`datetime` would reject them. -/
def mkStamp (y m d hh mm ss : Nat) : Option Int :=
  if validDate y m d && ss ≤ 59 then
    some (dayNumber y m d * 86400 + (hh : Int) * 3600 + (mm : Int) * 60 + (ss : Int))
  else none

/-- Python `strptime` with format `"%Y-%m-%d %H:%M"` (a space in a format matches
`\s+`), as a local timestamp. -/
def fmtYMD_HM (cs : List Char) : Option Int :=
  (fieldCands specY cs).findSome? fun yr =>
    (litChar '-' yr.2).bind fun r1 =>
      (fieldCands specMon r1).findSome? fun mr =>
        (litChar '-' mr.2).bind fun r2 =>
          (fieldCands specDay r2).findSome? fun dr =>
            (wsPlus dr.2).bind fun r3 =>
              (fieldCands specH r3).findSome? fun hr =>
                (litChar ':' hr.2).bind fun r4 =>
                  (fieldCands specM r4).findSome? fun minr =>
                    if minr.2.isEmpty then mkStamp yr.1 mr.1 dr.1 hr.1 minr.1 0 else none

/-- Python `strptime` with format `"%Y-%m-%d %H:%M:%S"`. -/
def fmtYMD_HMS (cs : List Char) : Option Int :=
  (fieldCands specY cs).findSome? fun yr =>
    (litChar '-' yr.2).bind fun r1 =>
      (fieldCands specMon r1).findSome? fun mr =>
        (litChar '-' mr.2).bind fun r2 =>
          (fieldCands specDay r2).findSome? fun dr =>
            (wsPlus dr.2).bind fun r3 =>
              (fieldCands specH r3).findSome? fun hr =>
                (litChar ':' hr.2).bind fun r4 =>
                  (fieldCands specM r4).findSome? fun minr =>
                    (litChar ':' minr.2).bind fun r5 =>
                      (fieldCands specS r5).findSome? fun sr =>
                        if sr.2.isEmpty then mkStamp yr.1 mr.1 dr.1 hr.1 minr.1 sr.1 else none

/-- Python `strptime` with format `"%d/%m/%Y %H:%M"`. -/
def fmtDMY_HM (cs : List Char) : Option Int :=
  (fieldCands specDay cs).findSome? fun dr =>
    (litChar '/' dr.2).bind fun r1 =>
      (fieldCands specMon r1).findSome? fun mr =>
        (litChar '/' mr.2).bind fun r2 =>
          (fieldCands specY r2).findSome? fun yr =>
            (wsPlus yr.2).bind fun r3 =>
              (fieldCands specH r3).findSome? fun hr =>
                (litChar ':' hr.2).bind fun r4 =>
                  (fieldCands specM r4).findSome? fun minr =>
                    if minr.2.isEmpty then mkStamp yr.1 mr.1 dr.1 hr.1 minr.1 0 else none

/-- Python `strptime` with format `"%m/%d/%Y %H:%M"`. -/
def fmtMDY_HM (cs : List Char) : Option Int :=
  (fieldCands specMon cs).findSome? fun mr =>
    (litChar '/' mr.2).bind fun r1 =>
      (fieldCands specDay r1).findSome? fun dr =>
        (litChar '/' dr.2).bind fun r2 =>
          (fieldCands specY r2).findSome? fun yr =>
            (wsPlus yr.2).bind fun r3 =>
              (fieldCands specH r3).findSome? fun hr =>
                (litChar ':' hr.2).bind fun r4 =>
                  (fieldCands specM r4).findSome? fun minr =>
                    if minr.2.isEmpty then mkStamp yr.1 mr.1 dr.1 hr.1 minr.1 0 else none

end Strptime

section ParseTime

/-- The unit-dispatch `if`/`elif` chain of the relative-offset branch
(reminder_scheduler.py lines 60-79), as an offset in seconds. -/
def unitCase (amount : Int) (p1 : List Char) : Option Int :=
  if containsSub p1 (str "second") || containsSub p1 (str "sec") then some (amount * 1)
  else if containsSub p1 (str "minute") || containsSub p1 (str "min") then some (amount * 60)
  else if containsSub p1 (str "hour") || containsSub p1 (str "hr") then some (amount * 3600)
  else if containsSub p1 (str "day") then some (amount * 86400)
  else if containsSub p1 (str "week") then some (amount * 604800)
  else none

/-- The body shared by the `"in "` and `"after "` prefixes: split the rest
into words, `int` the first, unit-dispatch on the second
(reminder_scheduler.py lines 55-79). -/
def relWords (rest : List Char) : Option Int :=
  match pySplitWs rest with
  | p0 :: p1 :: _ =>
    match pyInt p0 with
    | none => none
    | some amount => unitCase amount p1
  | _ => none

/-- The `"in X"` / `"after X"` relative-offset branch of
`ReminderScheduler.parse_time` (reminder_scheduler.py lines 48-82): returns
the offset in seconds when it fires, `none` when the code falls through
(prefix absent, fewer than two words, `int` failure, or unrecognized unit). -/
def relBranch (t : List Char) : Option Int :=
  if (str "in ").isPrefixOf t then relWords (t.drop 3)
  else if (str "after ").isPrefixOf t then relWords (t.drop 6)
  else none

/-- The time-of-day extracted inside the `"tomorrow"` branch
(reminder_scheduler.py lines 89-103): `time_str.split("at")[1].strip()`,
spaces removed, tried against the formats `%I%p`, `%I:%M%p`, `%H:%M`, `%H`. -/
def tmrwTod (t : List Char) : Option Nat :=
  if containsSub t (str "at") then
    tryFmts [fmtIp, fmtIMp, fmtHM, fmtH]
      (removeSpaces (pyStrip ((pySplit t (str "at")).getD 1 [])))
  else none

/-- The time-of-day extracted in the `"today" / bare "at"` branch
(reminder_scheduler.py lines 110-131), formats `%I%p`, `%I:%M%p`, `%H:%M`,
`%H`, `%I:%M`; `none` when the branch falls through. -/
def todayTod (t : List Char) : Option Nat :=
  if containsSub t (str "today") || containsSub t (str "at") then
    if containsSub t (str "at") then
      tryFmts [fmtIp, fmtIMp, fmtHM, fmtH, fmtIM]
        (removeSpaces (pyStrip ((pySplit t (str "at")).getD 1 [])))
    else none
  else none

/-- The absolute-format cascade of `parse_time` (reminder_scheduler.py
lines 133-146). -/
def absParse (t : List Char) : Option Int :=
  match fmtYMD_HM t with
  | some r => some r
  | none =>
    match fmtYMD_HMS t with
    | some r => some r
    | none =>
      match fmtDMY_HM t with
      | some r => some r
      | none => fmtMDY_HM t

/-- Embedding of `ReminderScheduler.parse_time` (reminder_scheduler.py lines 30-151).
`now` is the current local timestamp in seconds; the result is the parsed
local timestamp. -/
def parse_time (s : List Char) (now : Int) : Int :=
  let t := pyStrip (pyLower s)
  match relBranch t with
  | some d => now + d
  | none =>
    if containsSub t (str "tomorrow") then
      match tmrwTod t with
      | some tod => Int.ediv (now + 86400) 86400 * 86400 + (tod : Int)
      | none => now + 86400
    else
      match todayTod t with
      | some tod =>
        let r := Int.ediv now 86400 * 86400 + (tod : Int)
        if r < now then r + 86400 else r
      | none =>
        match absParse t with
        | some ts => ts
        | none => now + 3600

end ParseTime

section RegexEngine

/-!
The three Tier-1 patterns of `TelegramBot.extract_reminder_from_text`
(bot.py lines 158-165) are embedded as dedicated backtracking matchers that
follow Python `re.search` semantics for these patterns exactly: starting
positions are tried left to right; alternations in their written order;
greedy pieces (`\s+`) longest-first; lazy pieces (`[^to]+?`, `(.+?)`)
shortest-first; a later component failing backtracks the nearest earlier
choice point first (the candidate lists below are nested so the leftmost
component varies slowest, which is exactly Python's order).
-/

/-- The `.` of a Python regex without DOTALL: any character but a newline. -/
def notNl (c : Char) : Bool := c != '\n'

/-- The character class `[^to]`. -/
def clsNotTO (c : Char) : Bool := c != 't' && c != 'o'

/-- Candidates of a lazy `p+?`: each pair is (captured run, rest), shortest
capture first; every capture is a non-empty run of class characters. -/
def lazyCands (p : Char → Bool) (cs : List Char) : List (List Char × List Char) :=
  (List.range (cs.takeWhile p).length).map (fun i => (cs.take (i + 1), cs.drop (i + 1)))

/-- Candidates of a greedy `\s+`: the rest of the input after consuming
1..k leading whitespace characters, longest consumption first. -/
def wsGreedy (cs : List Char) : List (List Char) :=
  ((List.range (cs.takeWhile isWsB).length).map (fun i => cs.drop (i + 1))).reverse

/-- Match a literal and return the rest. -/
def stripLit (lit cs : List Char) : Option (List Char) :=
  if lit.isPrefixOf cs then some (cs.drop lit.length) else none

/-- A trailing greedy `(.+)` with nothing after it: captures the maximal
non-empty run of non-newline characters. -/
def captureRest (cs : List Char) : Option (List Char) :=
  let x := cs.takeWhile notNl
  if x.isEmpty then none else some x

/-- Pattern `remind me (after|in)\s+([^to]+?)\s+to\s+(.+)` anchored at the
head of `cs`; returns the three captured groups. -/
def p1At (cs : List Char) : Option (List Char × List Char × List Char) :=
  (stripLit (str "remind me ") cs).bind fun r1 =>
    [str "after", str "in"].findSome? fun kw =>
      (stripLit kw r1).bind fun r2 =>
        (wsGreedy r2).findSome? fun r3 =>
          (lazyCands clsNotTO r3).findSome? fun xr =>
            (wsGreedy xr.2).findSome? fun r5 =>
              (stripLit (str "to") r5).bind fun r6 =>
                (wsGreedy r6).findSome? fun r7 =>
                  (captureRest r7).map fun y => (kw, xr.1, y)

/-- The six time keywords of the second pattern's alternation, in order. -/
def kwAlts : List (List Char) :=
  [str "after", str "in", str "at", str "tomorrow", str "today", str "next"]

/-- Pattern `remind me to\s+(.+?)\s+(after|in|at|tomorrow|today|next)\s+(.+)`
anchored at the head of `cs`. -/
def p2At (cs : List Char) : Option (List Char × List Char × List Char) :=
  (stripLit (str "remind me to") cs).bind fun r1 =>
    (wsGreedy r1).findSome? fun r2 =>
      (lazyCands notNl r2).findSome? fun xr =>
        (wsGreedy xr.2).findSome? fun r4 =>
          kwAlts.findSome? fun kw =>
            (stripLit kw r4).bind fun r5 =>
              (wsGreedy r5).findSome? fun r6 =>
                (captureRest r6).map fun y => (xr.1, kw, y)

/-- Pattern `(after|in)\s+([^to]+?)\s+remind me to\s+(.+)` anchored at the
head of `cs`. -/
def p3At (cs : List Char) : Option (List Char × List Char × List Char) :=
  [str "after", str "in"].findSome? fun kw =>
    (stripLit kw cs).bind fun r1 =>
      (wsGreedy r1).findSome? fun r2 =>
        (lazyCands clsNotTO r2).findSome? fun xr =>
          (wsGreedy xr.2).findSome? fun r4 =>
            (stripLit (str "remind me to") r4).bind fun r5 =>
              (wsGreedy r5).findSome? fun r6 =>
                (captureRest r6).map fun y => (kw, xr.1, y)

/-- Python `re.search`: try the anchored matcher at every start position, leftmost
first. -/
def reSearch {α : Type} (f : List Char → Option α) : List Char → Option α
  | [] => f []
  | c :: rest =>
    match f (c :: rest) with
    | some r => some r
    | none => reSearch f rest

end RegexEngine

section Extractor

/-- Result of `extract_reminder_from_text`: the `{'content': ..,
'time_str': ..}` dictionary. -/
structure ExtractResult where
  content : List Char
  time_str : List Char
deriving DecidableEq, Repr

/-- The group disambiguation applied to a Tier-1 match (bot.py lines
174-187): whichever captured group literally equals a time keyword anchors
the time side; if neither does the pattern is skipped (`continue`). -/
def disamb (g0 g1 g2 : List Char) : Option ExtractResult :=
  if g0 ∈ kwAlts then some ⟨pyStrip g2, pyStrip (g0 ++ ' ' :: g1)⟩
  else if g1 ∈ kwAlts then some ⟨pyStrip g0, pyStrip (g1 ++ ' ' :: g2)⟩
  else none

/-- Tier 1 of `extract_reminder_from_text` (bot.py lines 157-187): the
three structured patterns tried in order; a match whose groups cannot be
disambiguated falls through to the next pattern. -/
def tier1 (tl : List Char) : Option ExtractResult :=
  match (match reSearch p1At tl with
         | some g => disamb g.1 g.2.1 g.2.2
         | none => none) with
  | some r => some r
  | none =>
    match (match reSearch p2At tl with
           | some g => disamb g.1 g.2.1 g.2.2
           | none => none) with
    | some r => some r
    | none =>
      match reSearch p3At tl with
      | some g => disamb g.1 g.2.1 g.2.2
      | none => none

/-- Python `re.sub(r'^(remind me to|remind me|set a reminder to|reminder to)\s*',
'', s)`: strip one leading alternative (first alternative that matches, in
order) plus following whitespace. -/
def stripLeadT2 (s : List Char) : List Char :=
  match [str "remind me to", str "remind me", str "set a reminder to",
         str "reminder to"].findSome? fun p =>
      if p.isPrefixOf s then some ((s.drop p.length).dropWhile isWsB) else none with
  | some r => r
  | none => s

/-- Python `re.sub(r'^(remind me to|remind me)\s*', '', s)` (Tier 3). -/
def stripLeadT3 (s : List Char) : List Char :=
  match [str "remind me to", str "remind me"].findSome? fun p =>
      if p.isPrefixOf s then some ((s.drop p.length).dropWhile isWsB) else none with
  | some r => r
  | none => s

/-- The Tier-2 keyword list, in the source's fixed priority order
(bot.py line 190). -/
def t2Keywords : List (List Char) :=
  [str " after ", str " in ", str " at ", str " tomorrow ", str " today "]

/-- Tier 2 of `extract_reminder_from_text` (bot.py lines 189-207): split at
the first listed keyword that occurs; the prefix (leading reminder phrase
stripped) must be non-empty and longer than 3 characters, else the next
keyword is tried. -/
def tier2 (tl : List Char) : Option ExtractResult :=
  t2Keywords.findSome? fun kw =>
    if containsSub tl kw then
      let idx := firstOccIdx tl kw
      let before := pyStrip (stripLeadT2 (pyStrip (tl.take idx)))
      let after := pyStrip (tl.drop idx)
      if !before.isEmpty && before.length > 3 then some ⟨before, after⟩ else none
    else none

/-- Embedding of `TelegramBot.extract_reminder_from_text` (bot.py lines 147-213). -/
def extract_reminder_from_text (text : List Char) : ExtractResult :=
  let tl := pyStrip (pyLower text)
  let originalText := pyStrip text
  match tier1 tl with
  | some r => r
  | none =>
    match tier2 tl with
    | some r => r
    | none =>
      let content := pyStrip (stripLeadT3 tl)
      ⟨if !content.isEmpty then content else originalText, str "in 1 hour"⟩

end Extractor

section Scheduler

/-- One APScheduler job as scheduled by `schedule_reminder`: its trigger
time and the callback arguments `(user_id, content, reminder_id)`. -/
structure JobInfo where
  fireAt : Int
  userId : Int
  content : List Char
  reminderId : Nat
deriving DecidableEq, Repr

/-- The APScheduler job store: jobs keyed by their string job id. -/
abbrev SchedulerState := List (List Char × JobInfo)

/-- Embedding of `scheduler.add_job(..., id := jobId, replace_existing := True)`: any
job with the same id is replaced, never duplicated. -/
def addJob (st : SchedulerState) (jobId : List Char) (job : JobInfo) : SchedulerState :=
  st.filter (fun j => j.1 != jobId) ++ [(jobId, job)]

/-- The job id `f"reminder_{reminder_id}"`. -/
def jobIdFor (reminderId : Nat) : List Char := str "reminder_" ++ (Nat.repr reminderId).data

/-- The dictionary returned by `schedule_reminder`. -/
structure ScheduleResult where
  success : Bool
  parsedTime : Option Int
  jobId : Option (List Char)
deriving DecidableEq, Repr

/-- Embedding of `ReminderScheduler.schedule_reminder` (reminder_scheduler.py lines
153-215): parse the time string, reject (installing nothing) when the
parsed time is strictly before `now`, otherwise install-or-replace the
single job keyed by `reminder_id`.  `now` is the current local timestamp at
acceptance. -/
def schedule_reminder (st : SchedulerState) (now : Int) (reminderId : Nat)
    (userId : Int) (content : List Char) (timeStr : List Char) :
    ScheduleResult × SchedulerState :=
  let reminderTime := parse_time timeStr now
  if reminderTime < now then
    ({ success := false, parsedTime := none, jobId := none }, st)
  else
    let jid := jobIdFor reminderId
    ({ success := true, parsedTime := some reminderTime, jobId := some jid },
      addJob st jid { fireAt := reminderTime, userId := userId,
                      content := content, reminderId := reminderId })

end Scheduler

section BotGlue

/-- A row of the `reminders` table (database.py `Reminder`): the fields the
verified code paths touch. -/
structure ReminderRow where
  id : Nat
  userId : Nat
  content : List Char
  reminderTime : Int
  sent : Bool
  completed : Bool
deriving DecidableEq, Repr

/-- The durable store: the reminder rows plus the id the next insert gets. -/
structure DBState where
  nextId : Nat
  rows : List ReminderRow
deriving DecidableEq, Repr

/-- Embedding of `TelegramBot.send_reminder_async` (bot.py lines 83-118).  `sendOk` is
whether the external Telegram `send_message` call succeeds, `dbOk` whether
the follow-up database commit succeeds (a failing commit is rolled back).
Returns the resulting rows and the number of delivery-callback attempts
made (the body invokes `send_message` exactly once, with no retry on any
path). -/
def send_reminder_async (sendOk dbOk : Bool) (reminderId : Nat)
    (rows : List ReminderRow) : List ReminderRow × Nat :=
  if sendOk then
    match rows.find? (fun r => r.id == reminderId) with
    | some _ =>
      if dbOk then
        (rows.map (fun r =>
          if r.id == reminderId then { r with sent := true, completed := true } else r), 1)
      else (rows, 1)
    | none => (rows, 1)
  else (rows, 1)

/-- The vector-store side effect of a successful scheduling:
`vector_store.add_reminder(user_id, content, time)` entries. -/
abbrev VectorStore := List (Int × List Char × Int)

/-- What `create_reminder_from_message` replies to the user. -/
inductive ReplyKind where
  | scheduled
  | couldNotParse
deriving DecidableEq, Repr

/-- Result state of `create_reminder_from_message`. -/
structure CreateResult where
  db : DBState
  sched : SchedulerState
  vs : VectorStore
  reply : ReplyKind
deriving DecidableEq, Repr

/-- Embedding of `TelegramBot.create_reminder_from_message` (bot.py lines 215-281):
extract content and time phrase, optimistically insert a reminder row,
schedule it; on scheduling success update the row's time and add a vector
store entry; on failure delete the optimistic row and report the failure.
`now` is the current local timestamp. -/
def create_reminder_from_message (db : DBState) (st : SchedulerState)
    (vs : VectorStore) (now : Int) (userTgId : Int) (userDbId : Nat)
    (text : List Char) : CreateResult :=
  let info := extract_reminder_from_text text
  let rid := db.nextId
  let row : ReminderRow :=
    { id := rid, userId := userDbId, content := info.content,
      reminderTime := now, sent := false, completed := false }
  let db1 : DBState := { nextId := rid + 1, rows := db.rows ++ [row] }
  let rs := schedule_reminder st now rid userTgId info.content info.time_str
  if rs.1.success then
    let t := rs.1.parsedTime.getD 0
    { db := { db1 with rows := db1.rows.map (fun r =>
        if r.id == rid then { r with reminderTime := t } else r) },
      sched := rs.2, vs := vs ++ [(userTgId, info.content, t)],
      reply := ReplyKind.scheduled }
  else
    { db := { db1 with rows := db1.rows.filter (fun r => r.id != rid) },
      sched := rs.2, vs := vs, reply := ReplyKind.couldNotParse }

end BotGlue

/-- The decimal digit characters. -/
def digitChars : List Char := ['0', '1', '2', '3', '4', '5', '6', '7', '8', '9']

/-- The unit tokens of claim C3: second/minute/hour/day/week and their
abbreviations as accepted by `parse_time`. -/
def unitTokens : List (List Char) :=
  [str "second", str "seconds", str "sec", str "secs",
   str "minute", str "minutes", str "min", str "mins",
   str "hour", str "hours", str "hr", str "hrs",
   str "day", str "days", str "week", str "weeks"]

/-- The length of one unit in seconds, by the substring mapping the claim
states (contains "sec" → seconds, "min" → minutes, "hr"/"hour" → hours,
"day" → days, "week" → weeks). -/
def unitSecs (u : List Char) : Int :=
  if containsSub u (str "sec") then 1
  else if containsSub u (str "min") then 60
  else if containsSub u (str "hr") || containsSub u (str "hour") then 3600
  else if containsSub u (str "day") then 86400
  else if containsSub u (str "week") then 604800
  else 0

section StringLemmas

/-- Mapping `pyLower` fixes a string all of whose characters it fixes. -/
lemma pyLower_eq_self (xs : List Char) (h : ∀ c ∈ xs, pyLowerChar c = c) :
    pyLower xs = xs := by
  unfold pyLower
  induction xs with
  | nil => rfl
  | cons c t ih =>
    simp only [List.map_cons, h c (by simp)]
    rw [ih (fun d hd => h d (by simp [hd]))]

/-- Function `dropWhile` fixes a list whose head fails the predicate. -/
lemma dropWhile_eq_self_of_head (xs : List Char)
    (h : ∀ c, xs.head? = some c → isWsB c = false) :
    xs.dropWhile isWsB = xs := by
  cases xs with
  | nil => rfl
  | cons c t => simp [List.dropWhile_cons, h c rfl]

/-- Function `pyStrip` fixes a string whose first and last characters are not
whitespace. -/
lemma pyStrip_eq_self (xs : List Char)
    (hh : ∀ c, xs.head? = some c → isWsB c = false)
    (hl : ∀ c, xs.getLast? = some c → isWsB c = false) :
    pyStrip xs = xs := by
  unfold pyStrip
  rw [dropWhile_eq_self_of_head xs hh]
  rw [dropWhile_eq_self_of_head xs.reverse (fun c hc => hl c (by
    rwa [List.head?_reverse] at hc))]
  exact List.reverse_reverse xs

/-- Facts about a decimal digit character that the C3 proof needs. -/
lemma digitChar_facts (c : Char) (h : c ∈ digitChars) :
    pyLowerChar c = c ∧ isWsB c = false ∧ c.isDigit = true ∧ c ≠ '-' ∧ c ≠ '+' := by
  fin_cases h <;> refine ⟨by decide, by decide, by decide, by decide, by decide⟩

/-- Splitting on whitespace: a whitespace-free chunk before a space comes
off as one word. -/
lemma splitWsAux_append (a : List Char) (b acc : List Char)
    (ha : ∀ c ∈ a, isWsB c = false) (hne : a ≠ [] ∨ acc ≠ []) :
    splitWsAux (a ++ ' ' :: b) acc = (acc.reverse ++ a) :: splitWsAux b [] := by
  induction a generalizing acc with
  | nil =>
    have hacc : acc ≠ [] := by
      rcases hne with h | h
      · exact absurd rfl h
      · exact h
    simp only [List.nil_append, splitWsAux]
    rw [if_pos (by decide)]
    rw [if_neg (by simpa [List.isEmpty_iff] using hacc)]
    simp
  | cons c a' ih =>
    have hc : isWsB c = false := ha c (by simp)
    simp only [List.cons_append, splitWsAux, hc, Bool.false_eq_true, if_false,
      List.append_eq]
    rw [ih (c :: acc) (fun d hd => ha d (by simp [hd])) (Or.inr (by simp))]
    simp

/-- A non-empty all-digit string passes `digitsToNat` with its decimal
value. -/
lemma digitsToNat_digits (ds : List Char) (hne : ds ≠ [])
    (hd : ∀ c ∈ ds, c ∈ digitChars) : digitsToNat ds = some (decVal ds) := by
  unfold digitsToNat
  rw [if_neg (by simpa [List.isEmpty_iff] using hne)]
  rw [if_pos]
  rw [List.all_eq_true]
  intro c hc
  exact (digitChar_facts c (hd c hc)).2.2.1

/-- Relation `a.isPrefixOf (a ++ b)` always holds. -/
lemma isPrefixOf_append_self (a b : List Char) : a.isPrefixOf (a ++ b) = true := by
  induction a with
  | nil => simp [List.isPrefixOf]
  | cons c t ih => simpa [List.isPrefixOf] using ih

/-- Function `pyStrip` fixes a whitespace-free string. -/
lemma pyStrip_eq_self_of_all (xs : List Char) (h : ∀ c ∈ xs, isWsB c = false) :
    pyStrip xs = xs := by
  refine pyStrip_eq_self xs (fun c hc => ?_) (fun c hc => ?_)
  · exact h c (by cases xs with
      | nil => cases hc
      | cons d t => cases hc; simp)
  · exact h c (List.mem_of_mem_getLast? (by rw [hc]; rfl))

/-- Value of `pyInt` of a (possibly negated) digit string is its signed decimal
value. -/
lemma pyInt_signed (ds : List Char) (neg : Bool) (hne : ds ≠ [])
    (hd : ∀ c ∈ ds, c ∈ digitChars) :
    pyInt ((if neg then ['-'] else []) ++ ds)
      = some (if neg then -(decVal ds : Int) else (decVal ds : Int)) := by
  have hnws : ∀ c ∈ ds, isWsB c = false := fun c hc =>
    (digitChar_facts c (hd c hc)).2.1
  cases neg with
  | false =>
    show pyInt ds = some ((decVal ds : Int))
    unfold pyInt
    rw [pyStrip_eq_self_of_all ds hnws]
    cases ds with
    | nil => exact absurd rfl hne
    | cons d t =>
      have hdfacts := digitChar_facts d (hd d (by simp))
      simp only [pyIntRaw]
      rw [if_neg hdfacts.2.2.2.1, if_neg hdfacts.2.2.2.2]
      rw [digitsToNat_digits (d :: t) (by simp) hd]
      rfl
  | true =>
    show pyInt ('-' :: ds) = some (-(decVal ds : Int))
    unfold pyInt
    rw [pyStrip_eq_self_of_all ('-' :: ds) (by
      intro c hc
      rcases List.mem_cons.mp hc with rfl | hc'
      · decide
      · exact hnws c hc')]
    simp only [pyIntRaw, if_true]
    rw [digitsToNat_digits ds hne hd]
    rfl

/-- Every claimed unit token is non-empty. -/
lemma unit_ne (u : List Char) (hu : u ∈ unitTokens) : u ≠ [] := by
  fin_cases hu <;> decide

/-- Every claimed unit token is already lowercase. -/
lemma unit_lower (u : List Char) (hu : u ∈ unitTokens) : pyLower u = u := by
  fin_cases hu <;> decide

/-- A unit token alone splits into the one-word list. -/
lemma unit_splitWs (u : List Char) (hu : u ∈ unitTokens) : splitWsAux u [] = [u] := by
  fin_cases hu <;> decide

/-- A unit token does not end in whitespace. -/
lemma unit_last_nws (u : List Char) (hu : u ∈ unitTokens) :
    ∀ c, u.getLast? = some c → isWsB c = false := by
  intro c hc
  have hall : unitTokens.all
      (fun w => (w.getLast?.map (fun c => !isWsB c)).getD true) = true := by decide
  have h2 := List.all_eq_true.mp hall u hu
  rw [hc] at h2
  simpa using h2

/-- The unit dispatch on a claimed unit token yields `amount * unitSecs`. -/
lemma unitCase_tokens (amount : Int) (u : List Char) (hu : u ∈ unitTokens) :
    unitCase amount u = some (amount * unitSecs u) := by
  fin_cases hu <;> rfl

/-- Function `getLast?` looks only at a non-empty right half of an append. -/
lemma getLast?_append_right (l l' : List Char) (h : l' ≠ []) :
    (l ++ l').getLast? = l'.getLast? := by
  rw [List.getLast?_append]
  cases hx : l'.getLast? with
  | none => exact absurd (List.getLast?_eq_none_iff.mp hx) h
  | some a => rfl

end StringLemmas

/-- Claim C3: for every phrase "in N unit" / "after N unit" with N a
(possibly signed) decimal integer and the unit one of
second/minute/hour/day/week or their abbreviations (matched by substring:
"sec" → seconds, "min" → minutes, "hr"/"hour" → hours, "day" → days,
"week" → weeks), `parse_time` returns exactly `now + N * unit`. -/
theorem c3_relative_offset (now : Int) (ds u pre : List Char) (neg : Bool)
    (hne : ds ≠ []) (hd : ∀ c ∈ ds, c ∈ digitChars)
    (hu : u ∈ unitTokens) (hp : pre ∈ [str "in ", str "after "]) :
    parse_time (pre ++ (if neg then ['-'] else []) ++ ds ++ ' ' :: u) now
      = now + (if neg then -(decVal ds : Int) else (decVal ds : Int)) * unitSecs u := by
  have hv : pyInt ((if neg then ['-'] else []) ++ ds)
      = some (if neg then -(decVal ds : Int) else (decVal ds : Int)) :=
    pyInt_signed ds neg hne hd
  have hword_nws : ∀ c ∈ (if neg then ['-'] else []) ++ ds, isWsB c = false := by
    intro c hc
    rcases List.mem_append.mp hc with h | h
    · cases neg with
      | false => simp at h
      | true =>
        simp at h
        subst h
        decide
    · exact (digitChar_facts c (hd c h)).2.1
  have hword_ne : (if neg then ['-'] else []) ++ ds ≠ [] := by
    cases neg <;> simp [hne]
  have hsplit : pySplitWs (((if neg then ['-'] else []) ++ ds) ++ ' ' :: u)
      = [(if neg then ['-'] else []) ++ ds, u] := by
    unfold pySplitWs
    rw [splitWsAux_append _ u [] hword_nws (Or.inl hword_ne)]
    rw [unit_splitWs u hu]
    simp
  have hrelw : relWords (((if neg then ['-'] else []) ++ ds) ++ ' ' :: u)
      = some ((if neg then -(decVal ds : Int) else (decVal ds : Int)) * unitSecs u) := by
    simp only [relWords, hsplit, hv]
    exact unitCase_tokens _ u hu
  have hrel : relBranch (pre ++ (if neg then ['-'] else []) ++ ds ++ ' ' :: u)
      = some ((if neg then -(decVal ds : Int) else (decVal ds : Int)) * unitSecs u) := by
    fin_cases hp
    · rw [List.append_assoc, List.append_assoc]
      have hpre : (str "in ").isPrefixOf
          (str "in " ++ ((if neg then ['-'] else []) ++ (ds ++ ' ' :: u))) = true :=
        isPrefixOf_append_self _ _
      have hdrop : (str "in " ++ ((if neg then ['-'] else []) ++ (ds ++ ' ' :: u))).drop 3
          = (if neg then ['-'] else []) ++ (ds ++ ' ' :: u) := rfl
      simp only [relBranch, hpre, if_true, hdrop]
      rw [← List.append_assoc]
      exact hrelw
    · rw [List.append_assoc, List.append_assoc]
      have hpre1 : (str "in ").isPrefixOf
          (str "after " ++ ((if neg then ['-'] else []) ++ (ds ++ ' ' :: u))) = false := rfl
      have hpre2 : (str "after ").isPrefixOf
          (str "after " ++ ((if neg then ['-'] else []) ++ (ds ++ ' ' :: u))) = true :=
        isPrefixOf_append_self _ _
      have hdrop : (str "after " ++ ((if neg then ['-'] else []) ++ (ds ++ ' ' :: u))).drop 6
          = (if neg then ['-'] else []) ++ (ds ++ ' ' :: u) := rfl
      simp only [relBranch, hpre1, hpre2, if_true, hdrop, Bool.false_eq_true, if_false]
      rw [← List.append_assoc]
      exact hrelw
  have hlow : pyLower (pre ++ (if neg then ['-'] else []) ++ ds ++ ' ' :: u)
      = pre ++ (if neg then ['-'] else []) ++ ds ++ ' ' :: u := by
    have h1 : pyLower pre = pre := by fin_cases hp <;> decide
    have h2 : pyLower (if neg then ['-'] else []) = (if neg then ['-'] else []) := by
      cases neg <;> decide
    have h3 : pyLower ds = ds :=
      pyLower_eq_self ds (fun c hc => (digitChar_facts c (hd c hc)).1)
    have h4 : pyLower (' ' :: u) = ' ' :: u := by
      show pyLowerChar ' ' :: pyLower u = ' ' :: u
      rw [unit_lower u hu]
      rfl
    simp only [pyLower] at h1 h2 h3 h4 ⊢
    simp [h1, h2, h3, h4]
  have hstrip : pyStrip (pre ++ (if neg then ['-'] else []) ++ ds ++ ' ' :: u)
      = pre ++ (if neg then ['-'] else []) ++ ds ++ ' ' :: u := by
    refine pyStrip_eq_self _ ?_ ?_
    · intro c hc
      fin_cases hp
      · cases hc; decide
      · cases hc; decide
    · intro c hc
      rw [getLast?_append_right _ (' ' :: u) (by simp)] at hc
      have : u.getLast? = some c := by
        rw [show (' ' :: u : List Char) = [' '] ++ u from rfl,
          getLast?_append_right _ _ (unit_ne u hu)] at hc
        exact hc
      exact unit_last_nws u hu c this
  simp only [parse_time]
  rw [hlow, hstrip, hrel]

/-- Witness for C3 at "in 5 minutes", `now = 0`. -/
theorem c3_witness : parse_time (str "in 5 minutes") 0 = 0 + 5 * 60 := by
  have h := c3_relative_offset 0 (str "5") (str "minutes") (str "in ") false
    (by decide) (by decide) (by decide) (by decide)
  exact h

section SchedulerLemmas

/-- Filtering a keyed store for a key right after `addJob` on that key
yields exactly the new entry: the replaced entries are gone. -/
lemma filter_addJob (s : SchedulerState) (jid : List Char) (j : JobInfo) :
    (addJob s jid j).filter (fun x => x.1 == jid) = [(jid, j)] := by
  unfold addJob
  rw [List.filter_append, List.filter_filter]
  have h : s.filter (fun a => a.1 == jid && a.1 != jid) = [] := by
    rw [List.filter_eq_nil_iff]
    intro a _
    by_cases ha : a.1 = jid <;> simp [ha]
  rw [h]
  simp [List.filter]

/-- Function `schedule_reminder` succeeds exactly when the parsed time is not in
the past. -/
lemma schedule_success_iff (st : SchedulerState) (now : Int) (rid : Nat)
    (uid : Int) (content ts : List Char) :
    (schedule_reminder st now rid uid content ts).1.success = true ↔
      ¬ parse_time ts now < now := by
  unfold schedule_reminder
  by_cases h : parse_time ts now < now <;> simp [h]

/-- On success the installed state is an `addJob` of the parsed time. -/
lemma schedule_state_of_success (st : SchedulerState) (now : Int) (rid : Nat)
    (uid : Int) (content ts : List Char)
    (h : ¬ parse_time ts now < now) :
    (schedule_reminder st now rid uid content ts).2 =
      addJob st (jobIdFor rid)
        { fireAt := parse_time ts now, userId := uid,
          content := content, reminderId := rid } := by
  unfold schedule_reminder
  simp [h]

end SchedulerLemmas

/-- Claim C1: scheduling the same reminder id twice (both calls accepted)
replaces the first timer rather than duplicating it: afterwards the job
store holds exactly one timer for that id, and its fire time is the one
resolved by the second call — so only the latest fire time ever fires and
at most one delivery occurs for that id. -/
theorem c1_reschedule_replaces (st : SchedulerState) (now1 now2 : Int)
    (rid : Nat) (uid1 uid2 : Int) (ct1 ct2 ts1 ts2 : List Char)
    (h1 : (schedule_reminder st now1 rid uid1 ct1 ts1).1.success = true)
    (h2 : (schedule_reminder (schedule_reminder st now1 rid uid1 ct1 ts1).2
            now2 rid uid2 ct2 ts2).1.success = true) :
    (((schedule_reminder (schedule_reminder st now1 rid uid1 ct1 ts1).2
        now2 rid uid2 ct2 ts2).2).filter (fun j => j.1 == jobIdFor rid)).map
        (fun j => j.2.fireAt)
      = [parse_time ts2 now2] := by
  have hp2 := (schedule_success_iff (schedule_reminder st now1 rid uid1 ct1 ts1).2
    now2 rid uid2 ct2 ts2).mp h2
  have hst2 := schedule_state_of_success (schedule_reminder st now1 rid uid1 ct1 ts1).2
    now2 rid uid2 ct2 ts2 hp2
  rw [hst2, filter_addJob]
  rfl

/-- Witness for C1 at concrete inputs: schedule id 5 for "in 5 minutes",
then re-schedule id 5 for "in 2 hours"; exactly one timer remains and it
fires at the second time. -/
theorem c1_witness :
    (((schedule_reminder (schedule_reminder [] 0 5 7 (str "call mom")
        (str "in 5 minutes")).2 10 5 7 (str "call mom") (str "in 2 hours")).2).filter
        (fun j => j.1 == jobIdFor 5)).map (fun j => j.2.fireAt)
      = [parse_time (str "in 2 hours") 10] :=
  c1_reschedule_replaces [] 0 10 5 7 7 (str "call mom") (str "call mom")
    (str "in 5 minutes") (str "in 2 hours") (by decide) (by decide)

/-- Claim C2: when the resolved fire time is strictly before `now` at
acceptance, `schedule_reminder` returns a failure result and installs no
timer — the job store is returned unchanged. -/
theorem c2_past_time_rejected (st : SchedulerState) (now : Int) (rid : Nat)
    (uid : Int) (content ts : List Char)
    (h : parse_time ts now < now) :
    schedule_reminder st now rid uid content ts
      = ({ success := false, parsedTime := none, jobId := none }, st) := by
  unfold schedule_reminder
  simp [h]

/-- Witness for C2: "in -5 minutes" resolves to 300 seconds in the past
and is rejected with the job store untouched. -/
theorem c2_witness :
    parse_time (str "in -5 minutes") 0 < 0 ∧
    schedule_reminder [] 0 5 7 (str "pay rent") (str "in -5 minutes")
      = ({ success := false, parsedTime := none, jobId := none }, []) :=
  ⟨by decide, c2_past_time_rejected [] 0 5 7 (str "pay rent") (str "in -5 minutes")
    (by decide)⟩

/-- Claim C7: on a fire, `send_reminder_async` makes exactly one delivery
attempt (no retry on any path); when the delivery callback fails the
durable sent/completed flags are left untouched (the reminder stays fired
but not delivered), and any change to the durable rows can only happen
after the callback succeeded; on callback and commit success the row is
marked sent and completed. -/
theorem c7_mark_only_after_delivery (sendOk dbOk : Bool) (rid : Nat)
    (rows : List ReminderRow) :
    (send_reminder_async sendOk dbOk rid rows).2 = 1 ∧
    (sendOk = false → (send_reminder_async sendOk dbOk rid rows).1 = rows) ∧
    ((send_reminder_async sendOk dbOk rid rows).1 ≠ rows → sendOk = true) ∧
    (sendOk = true → dbOk = true → (rows.find? (fun r => r.id == rid)).isSome →
      (send_reminder_async sendOk dbOk rid rows).1 =
        rows.map (fun r => if r.id == rid then
          { r with sent := true, completed := true } else r)) := by
  unfold send_reminder_async
  cases sendOk with
  | false => simp
  | true =>
    cases hf : rows.find? (fun r => r.id == rid) with
    | none => cases dbOk <;> simp [hf]
    | some r0 => cases dbOk <;> simp [hf]

/-- Witness for C7 at a concrete row: a failed callback leaves the row
unchanged; a successful callback with a successful commit marks it. -/
theorem c7_witness :
    (send_reminder_async false true 4
      [{ id := 4, userId := 2, content := str "x", reminderTime := 50,
         sent := false, completed := false }]).1
      = [{ id := 4, userId := 2, content := str "x", reminderTime := 50,
           sent := false, completed := false }] ∧
    (send_reminder_async true true 4
      [{ id := 4, userId := 2, content := str "x", reminderTime := 50,
         sent := false, completed := false }]).1
      = [{ id := 4, userId := 2, content := str "x", reminderTime := 50,
           sent := true, completed := true }] := by
  constructor
  · exact (c7_mark_only_after_delivery false true 4 _).2.1 rfl
  · have h := (c7_mark_only_after_delivery true true 4
      [{ id := 4, userId := 2, content := str "x", reminderTime := 50,
         sent := false, completed := false }]).2.2.2 rfl rfl (by decide)
    simpa using h

/-- Claim C8: when scheduling fails, `create_reminder_from_message`
deletes the optimistically inserted reminder row and reports the failure:
no durable reminder row remains, the job store is untouched and no vector
store entry is added. -/
theorem c8_failed_schedule_rolls_back (db : DBState) (st : SchedulerState)
    (vs : VectorStore) (now : Int) (tg : Int) (udb : Nat) (text : List Char)
    (hfresh : ∀ r ∈ db.rows, r.id ≠ db.nextId)
    (hfail : parse_time (extract_reminder_from_text text).time_str now < now) :
    (create_reminder_from_message db st vs now tg udb text).db.rows = db.rows ∧
    (create_reminder_from_message db st vs now tg udb text).reply
      = ReplyKind.couldNotParse ∧
    (create_reminder_from_message db st vs now tg udb text).sched = st ∧
    (create_reminder_from_message db st vs now tg udb text).vs = vs := by
  have hs := c2_past_time_rejected st now db.nextId tg
    (extract_reminder_from_text text).content
    (extract_reminder_from_text text).time_str hfail
  simp only [create_reminder_from_message]
  rw [hs]
  simp only [Bool.false_eq_true, if_false]
  refine ⟨?_, trivial, trivial, trivial⟩
  rw [List.filter_append]
  have h1 : db.rows.filter (fun r => r.id != db.nextId) = db.rows := by
    rw [List.filter_eq_self]
    intro r hr
    simpa using hfresh r hr
  simp [h1]

/-- Witness for C8: "pay rent in -5 minutes" extracts to a past time, the
optimistic row is rolled back and the submission reported as failed. -/
theorem c8_witness :
    (create_reminder_from_message ⟨1, []⟩ [] [] 0 7 3
      (str "pay rent in -5 minutes")).db.rows = [] ∧
    (create_reminder_from_message ⟨1, []⟩ [] [] 0 7 3
      (str "pay rent in -5 minutes")).reply = ReplyKind.couldNotParse ∧
    (create_reminder_from_message ⟨1, []⟩ [] [] 0 7 3
      (str "pay rent in -5 minutes")).sched = [] ∧
    (create_reminder_from_message ⟨1, []⟩ [] [] 0 7 3
      (str "pay rent in -5 minutes")).vs = [] :=
  c8_failed_schedule_rolls_back ⟨1, []⟩ [] [] 0 7 3
    (str "pay rent in -5 minutes") (by simp) (by decide)

/-- Claim C4 (corrected): `parse_time "today at 3pm"` returns today's
15:00 when that instant is not strictly before `now`, and rolls forward to
tomorrow's 15:00 exactly when today's 15:00 is strictly before `now`.  In
particular, with `now` exactly 15:00 the result is today's 15:00 (equal to
`now`), not tomorrow's. -/
theorem c4_amended_today_at_3pm (now : Int) :
    parse_time (str "today at 3pm") now =
      (if Int.ediv now 86400 * 86400 + 54000 < now
       then Int.ediv now 86400 * 86400 + 54000 + 86400
       else Int.ediv now 86400 * 86400 + 54000) := by
  have h0 : pyStrip (pyLower (str "today at 3pm")) = str "today at 3pm" := by decide
  have h1 : relBranch (str "today at 3pm") = none := by decide
  have h2 : containsSub (str "today at 3pm") (str "tomorrow") = false := by decide
  have h3 : todayTod (str "today at 3pm") = some 54000 := by decide
  simp only [parse_time, h0, h1, h2, h3, Bool.false_eq_true, if_false]
  rfl

/-- Counterexample to claim C4 as stated: with `now` exactly at 15:00 the
rollover does not happen (the code rolls over only on strictly-before), so
the result is today's 15:00, not tomorrow's 15:00 as the claim asserts for
the boundary case. -/
theorem c4_cex_boundary :
    parse_time (str "today at 3pm") (86400 * 20000 + 54000)
      = 86400 * 20000 + 54000 ∧
    (86400 * 20000 + 54000 : Int) ≠ 86400 * 20001 + 54000 := by
  exact ⟨by decide, by decide⟩

/-- Counterexample to claim C5 as stated: Tier-2 keyword splitting checks
`" at "` before `" tomorrow "`, so the input does not split at
`" tomorrow "` into content "don't forget meeting" and time phrase
"tomorrow at 3pm". -/
theorem c5_cex_splits_at_at :
    extract_reminder_from_text (str "don't forget meeting tomorrow at 3pm")
      ≠ ⟨str "don't forget meeting", str "tomorrow at 3pm"⟩ := by decide

/-- Claim C5 (corrected): for "don't forget meeting tomorrow at 3pm" no
Tier-1 structured pattern matches; Tier-2 splits at the first listed
keyword that occurs, which is `" at "` (it precedes `" tomorrow "` in the
fixed priority order), yielding content "don't forget meeting tomorrow"
and time phrase "at 3pm"; that phrase resolves to today's 15:00 when `now`
is before 15:00 (rolling to the next day once 15:00 has passed). -/
theorem c5_amended_keyword_split :
    tier1 (str "don't forget meeting tomorrow at 3pm") = none ∧
    extract_reminder_from_text (str "don't forget meeting tomorrow at 3pm")
      = ⟨str "don't forget meeting tomorrow", str "at 3pm"⟩ ∧
    parse_time (str "at 3pm") (86400 * 20000 + 36000) = 86400 * 20000 + 54000 := by
  exact ⟨by decide, by decide, by decide⟩

/-- Claim C6 (corrected): a phrase containing "tomorrow" and no "at"
resolves to `now + 1 day`, provided the earlier relative-offset rule did
not already resolve it (the phrase does not start with a parseable
"in N unit" / "after N unit"). -/
theorem c6_amended_tomorrow_plus_day (s : List Char) (now : Int)
    (h1 : relBranch (pyStrip (pyLower s)) = none)
    (h2 : containsSub (pyStrip (pyLower s)) (str "tomorrow") = true)
    (h3 : containsSub (pyStrip (pyLower s)) (str "at") = false) :
    parse_time s now = now + 86400 := by
  simp only [parse_time, tmrwTod, h1, h2, h3, Bool.false_eq_true, if_false, if_true]

/-- Witness for C6 (amended) at "tomorrow", `now = 0`. -/
theorem c6_witness : parse_time (str "tomorrow") 0 = 0 + 86400 :=
  c6_amended_tomorrow_plus_day (str "tomorrow") 0 (by decide) (by decide) (by decide)

/-- Counterexample to claim C6 as stated: "in 2 hours tomorrow" contains
"tomorrow" and no "at", yet resolves via the earlier relative-offset rule
to `now + 2` hours, not `now + 1` day. -/
theorem c6_cex_relative_wins :
    containsSub (pyStrip (pyLower (str "in 2 hours tomorrow"))) (str "tomorrow") = true ∧
    containsSub (pyStrip (pyLower (str "in 2 hours tomorrow"))) (str "at") = false ∧
    parse_time (str "in 2 hours tomorrow") 0 ≠ 0 + 86400 := by
  exact ⟨by decide, by decide, by decide⟩

section RegexSoundness

/-- Every prefix of the `takeWhile` run satisfies the class predicate. -/
lemma take_takeWhile_sat {p : Char → Bool} :
    ∀ (cs : List Char) (n : Nat), n ≤ (cs.takeWhile p).length →
      ∀ c ∈ cs.take n, p c = true := by
  intro cs
  induction cs with
  | nil =>
    intro n _ c hc
    simp at hc
  | cons a t ih =>
    intro n h c hc
    cases n with
    | zero => simp at hc
    | succ m =>
      by_cases hpa : p a = true
      · rw [List.takeWhile_cons, if_pos hpa] at h
        rw [List.take_succ_cons] at hc
        rcases List.mem_cons.mp hc with rfl | hc'
        · exact hpa
        · exact ih m (Nat.succ_le_succ_iff.mp (by simpa using h)) c hc'
      · rw [List.takeWhile_cons, if_neg hpa] at h
        simp at h

/-- A candidate produced by `lazyCands` captures a non-empty run of class
characters. -/
lemma lazyCands_sound {p : Char → Bool} {cs : List Char}
    {xr : List Char × List Char} (h : xr ∈ lazyCands p cs) :
    xr.1 ≠ [] ∧ ∀ c ∈ xr.1, p c = true := by
  unfold lazyCands at h
  obtain ⟨i, hi, hxr⟩ := List.mem_map.mp h
  have hlt : i < (cs.takeWhile p).length := List.mem_range.mp hi
  have hx : xr.1 = cs.take (i + 1) := by rw [← hxr]
  constructor
  · rw [hx]
    apply List.ne_nil_of_length_pos
    rw [List.length_take]
    have h1 : (cs.takeWhile p).length ≤ cs.length :=
      (List.takeWhile_sublist p).length_le
    omega
  · intro c hc
    rw [hx] at hc
    exact take_takeWhile_sat cs (i + 1) hlt c hc

/-- A successful `reSearch` comes from a successful anchored match at some
suffix. -/
lemma reSearch_sound {α : Type} {f : List Char → Option α} {cs : List Char}
    {r : α} (h : reSearch f cs = some r) : ∃ t, f t = some r := by
  induction cs with
  | nil => exact ⟨[], h⟩
  | cons c rest ih =>
    cases hf : f (c :: rest) with
    | some r' =>
      refine ⟨c :: rest, ?_⟩
      rw [hf]
      simp only [reSearch, hf] at h
      exact h
    | none =>
      simp only [reSearch, hf] at h
      exact ih h

/-- A successful anchored match of the first Tier-1 pattern certifies a
non-empty duration capture free of the letters `t` and `o` (the `[^to]+?`
class). -/
lemma p1At_sound {cs kw x y : List Char}
    (h : p1At cs = some (kw, x, y)) : x ≠ [] ∧ ∀ c ∈ x, c ≠ 't' ∧ c ≠ 'o' := by
  unfold p1At at h
  rw [Option.bind_eq_some] at h
  obtain ⟨r1, _, h⟩ := h
  obtain ⟨kw', _, h⟩ := List.exists_of_findSome?_eq_some h
  rw [Option.bind_eq_some] at h
  obtain ⟨r2, _, h⟩ := h
  obtain ⟨r3, _, h⟩ := List.exists_of_findSome?_eq_some h
  obtain ⟨xr, hxr, h⟩ := List.exists_of_findSome?_eq_some h
  obtain ⟨r5, _, h⟩ := List.exists_of_findSome?_eq_some h
  rw [Option.bind_eq_some] at h
  obtain ⟨r6, _, h⟩ := h
  obtain ⟨r7, _, h⟩ := List.exists_of_findSome?_eq_some h
  rw [Option.map_eq_some'] at h
  obtain ⟨y', _, heq⟩ := h
  have hsnd := lazyCands_sound hxr
  have hx : xr.1 = x := congrArg (fun t => t.2.1) heq
  rw [hx] at hsnd
  refine ⟨hsnd.1, fun c hc => ?_⟩
  have := hsnd.2 c hc
  unfold clsNotTO at this
  constructor
  · intro hct
    rw [hct] at this
    simp at this
  · intro hco
    rw [hco] at this
    simp at this

/-- A successful anchored match of the third Tier-1 pattern certifies a
non-empty duration capture free of the letters `t` and `o`. -/
lemma p3At_sound {cs kw x y : List Char}
    (h : p3At cs = some (kw, x, y)) : x ≠ [] ∧ ∀ c ∈ x, c ≠ 't' ∧ c ≠ 'o' := by
  unfold p3At at h
  obtain ⟨kw', _, h⟩ := List.exists_of_findSome?_eq_some h
  rw [Option.bind_eq_some] at h
  obtain ⟨r1, _, h⟩ := h
  obtain ⟨r2, _, h⟩ := List.exists_of_findSome?_eq_some h
  obtain ⟨xr, hxr, h⟩ := List.exists_of_findSome?_eq_some h
  obtain ⟨r4, _, h⟩ := List.exists_of_findSome?_eq_some h
  rw [Option.bind_eq_some] at h
  obtain ⟨r5, _, h⟩ := h
  obtain ⟨r6, _, h⟩ := List.exists_of_findSome?_eq_some h
  rw [Option.map_eq_some'] at h
  obtain ⟨y', _, heq⟩ := h
  have hsnd := lazyCands_sound hxr
  have hx : xr.1 = x := congrArg (fun t => t.2.1) heq
  rw [hx] at hsnd
  refine ⟨hsnd.1, fun c hc => ?_⟩
  have := hsnd.2 c hc
  unfold clsNotTO at this
  constructor
  · intro hct
    rw [hct] at this
    simp at this
  · intro hco
    rw [hco] at this
    simp at this

end RegexSoundness

/-- Claim C10: the first and third Tier-1 patterns match the duration with
the class `[^to]+?`, so any successful match certifies a duration capture
containing neither `t` nor `o`; consequently an input whose duration text
must contain a `t` or an `o` — such as "remind me after 2 hours to call
mom", where "hours" contains `o` — can never match them, and extraction
falls through (here all the way to the Tier-3 fallback). -/
theorem c10_duration_class_excludes_t_o :
    (∀ s kw x y, reSearch p1At s = some (kw, x, y) →
      x ≠ [] ∧ ∀ c ∈ x, c ≠ 't' ∧ c ≠ 'o') ∧
    (∀ s kw x y, reSearch p3At s = some (kw, x, y) →
      x ≠ [] ∧ ∀ c ∈ x, c ≠ 't' ∧ c ≠ 'o') ∧
    reSearch p1At (str "remind me after 2 hours to call mom") = none ∧
    reSearch p3At (str "remind me after 2 hours to call mom") = none ∧
    extract_reminder_from_text (str "remind me after 2 hours to call mom")
      = ⟨str "after 2 hours to call mom", str "in 1 hour"⟩ := by
  refine ⟨fun s kw x y h => ?_, fun s kw x y h => ?_, by decide, by decide, by decide⟩
  · obtain ⟨t, ht⟩ := reSearch_sound h
    exact p1At_sound ht
  · obtain ⟨t, ht⟩ := reSearch_sound h
    exact p3At_sound ht

/-- Witness for C10: the pattern does match "remind me in 5 min to call",
and the certified duration capture "5 min" is non-empty and `t`/`o`-free. -/
theorem c10_witness :
    (str "5 min" : List Char) ≠ [] ∧
    ∀ c ∈ (str "5 min" : List Char), c ≠ 't' ∧ c ≠ 'o' :=
  c10_duration_class_excludes_t_o.1 (str "remind me in 5 min to call")
    (str "in") (str "5 min") (str "call") (by decide)

/-- A Tier-2 result always carries a content longer than 3 characters (the
source's `if before and len(before) > 3` guard). -/
lemma tier2_some_content_pos {tl : List Char} {r : ExtractResult}
    (h : tier2 tl = some r) : r.content.length > 3 := by
  unfold tier2 at h
  obtain ⟨kw, _, hkw⟩ := List.exists_of_findSome?_eq_some h
  by_cases hc : containsSub tl kw = true
  · rw [if_pos hc] at hkw
    by_cases hg : (!(pyStrip (stripLeadT2 (pyStrip
        (tl.take (firstOccIdx tl kw))))).isEmpty
          && (pyStrip (stripLeadT2 (pyStrip
            (tl.take (firstOccIdx tl kw))))).length > 3) = true
    · rw [if_pos hg] at hkw
      cases hkw
      simpa using (Bool.and_eq_true_iff.mp hg).2
    · rw [if_neg hg] at hkw
      cases hkw
  · rw [if_neg hc] at hkw
    cases hkw

/-- Counterexample to claim C9 as stated: for the empty input, Tier 3
strips nothing, the stripped remainder is empty, and the fallback "original
text" is the empty string itself — so `extract` returns an empty content,
contradicting the claimed non-emptiness for every input. -/
theorem c9_cex_empty_input :
    (extract_reminder_from_text (str "")).content = str "" := by decide

/-- Claim C9 (corrected): the extractor never fails — it always returns a
content/time-phrase pair with the Tier-3 fallback time phrase "in 1 hour" —
and the content is non-empty for every input whose stripped text is
non-empty and which no Tier-1 structured pattern matches; for blank input
(such as the empty string) the Tier-3 fallback is the original stripped
text and the content is empty. -/
theorem c9_amended_nonempty_content (text : List Char)
    (h1 : tier1 (pyStrip (pyLower text)) = none)
    (h2 : pyStrip text ≠ []) :
    (extract_reminder_from_text text).content ≠ [] := by
  simp only [extract_reminder_from_text, h1]
  cases h : tier2 (pyStrip (pyLower text)) with
  | some r =>
    have := tier2_some_content_pos h
    simp only []
    intro hnil
    rw [hnil] at this
    simp at this
  | none =>
    simp only []
    by_cases hc : (pyStrip (stripLeadT3 (pyStrip (pyLower text)))).isEmpty
    · simpa [hc] using h2
    · simpa [hc] using fun hn => by simp [hn] at hc

/-- Witness for C9 (amended) at "hello world": no Tier-1 match, non-blank
input, non-empty content. -/
theorem c9_witness : (extract_reminder_from_text (str "hello world")).content ≠ [] :=
  c9_amended_nonempty_content (str "hello world") (by decide) (by decide)

-- Concrete cross-checks of the embedding against the behaviour of the
-- source on documented inputs.
example : parse_time (str "in 5 minutes") 0 = 300 := by decide
example : parse_time (str "after 2 hours") 100 = 7300 := by decide
example : parse_time (str "tomorrow") 5000 = 91400 := by decide
example : parse_time (str "tomorrow at 3pm") 5000 = 86400 + 54000 := by decide
example : parse_time (str "today at 3pm") 5000 = 54000 := by decide
example : parse_time (str "at 3pm") (86400 + 60000) = 2 * 86400 + 54000 := by decide
example : parse_time (str "2024-01-15 14:30") 0 = 19737 * 86400 + 14 * 3600 + 30 * 60 := by
  decide
example : parse_time (str "gibberish") 10 = 3610 := by decide
example : parse_time (str "in -5 minutes") 0 = -300 := by decide
example : extract_reminder_from_text (str "remind me after 2 min to stop scrolling")
    = ⟨str "stop scrolling", str "after 2 min"⟩ := by decide
example : extract_reminder_from_text (str "remind me to stop scrolling after 2 min")
    = ⟨str "stop scrolling", str "after 2 min"⟩ := by decide
example : extract_reminder_from_text (str "after 2 min remind me to stop scrolling")
    = ⟨str "stop scrolling", str "after 2 min"⟩ := by decide
example : extract_reminder_from_text (str "don't forget meeting tomorrow at 3pm")
    = ⟨str "don't forget meeting tomorrow", str "at 3pm"⟩ := by decide
example : extract_reminder_from_text (str "")
    = ⟨str "", str "in 1 hour"⟩ := by decide
example : extract_reminder_from_text (str "remind me after 2 hours to call mom")
    = ⟨str "after 2 hours to call mom", str "in 1 hour"⟩ := by decide
example : extract_reminder_from_text (str "pay rent in -5 minutes")
    = ⟨str "pay rent", str "in -5 minutes"⟩ := by decide
example : reSearch p1At (str "remind me in 5 min to call")
    = some (str "in", str "5 min", str "call") := by decide
